import Mathlib

/-!
# miniForum: `app/static/js/main.js`

A shallow embedding of the client-side behaviours of `main.js` and the
properties of its handlers and rate-limiting utilities.

Conventions of the embedding:

* closures with captured mutable variables become explicit state records
  (`DebounceState`, `ThrottleState`), a wrapper call is a state transformer;
* time is a clock in whole milliseconds; `setTimeout(cb, d)` issued at time `t`
  makes `cb` runnable from `t + timerDelay d` on, where `timerDelay` is the host's
  conversion of the delay to a signed 32-bit integer; a callback runs in a timer
  task of its own, at or after its due time and never inside another task;
* the underlying function of `throttle` is given by what a run of it does to the
  wrapper: the calls of the wrapper it makes and whether it throws;
* the DOM is the list of its elements in document order with parent links;
* the unread count is a Number: the integer literal of the response body is
  rounded to IEEE 754 binary64 and rendered by `Number::toString`.
-/

namespace MiniForum

/-! ## Host timers and tasks -/

/-- A pending `setTimeout` registration: its handle, the time at which it becomes
runnable, and the data captured by its callback. -/
structure Timer (β : Type) where
  id : Nat
  due : Nat
  payload : β
deriving Repr, DecidableEq

/-- The delay the host uses for `setTimeout(cb, timeout)` with a non-negative whole
number of milliseconds: the argument is converted to a signed 32-bit integer (reduced
modulo `2 ^ 32`, values from `2 ^ 31` on becoming negative) and a negative delay is
replaced by 0. -/
def timerDelay (timeout : Nat) : Nat :=
  if timeout % 2 ^ 32 < 2 ^ 31 then timeout % 2 ^ 32 else 0

/-- The call `clearTimeout(handle)`: drops the registration with that handle; a handle
that is `undefined` (never assigned) or already gone changes nothing. -/
def clearTimeout {β : Type} (handle : Option Nat) (timers : List (Timer β)) : List (Timer β) :=
  match handle with
  | none => timers
  | some h => timers.filter (fun t => t.id != h)

/-- The registration that runs next: the one with the smallest due time, the earliest
registered among equals. -/
def earliest {β : Type} : List (Timer β) → Option (Timer β)
  | [] => none
  | t :: ts =>
    match earliest ts with
    | none => some t
    | some u => if u.due < t.due then some u else some t

/-- The next registration that is runnable at time `t`, if any. -/
def nextDue {β : Type} (timers : List (Timer β)) (t : Nat) : Option (Timer β) :=
  match earliest timers with
  | none => none
  | some u => if u.due ≤ t then some u else none

/-- What happens between two statements of the program as far as timers go: time
passes (inside a task or between tasks), or the host runs a timer task. A timer task
runs the next runnable registration and does nothing when none is runnable; it may
come at any time from the due time on, never inside a running task. -/
inductive HostEvent where
  | elapse (d : Nat)
  | timerTask
deriving Repr, DecidableEq

/-- The time that passes during a list of host events. -/
def elapsed : List HostEvent → Nat
  | [] => 0
  | HostEvent.elapse d :: hs => d + elapsed hs
  | HostEvent.timerTask :: hs => elapsed hs

/-! ## `debounce(func, wait)` -/

/-- The state of one wrapper returned by `debounce`: the clock and timer table of the
host, the captured variable `timeout`, the log of the calls made to `func` (each with
its argument list, of type `α`) and the number of timer callbacks that have run.
What `func` does itself is not part of the state: its result is discarded, an
exception it throws ends the timer task only, and a call of the wrapper it makes is a
call of the wrapper right after the timer task. -/
structure DebounceState (α : Type) where
  now : Nat
  nextId : Nat
  timers : List (Timer α)
  timeout : Option Nat
  invoked : List α
  fired : Nat
deriving Repr, DecidableEq

/-- State right after `debounce(func, wait)` returned, at time `t0`: `timeout` is
`undefined`, nothing is scheduled and `func` has not been called. -/
def debounce {α : Type} (t0 : Nat) : DebounceState α :=
  { now := t0, nextId := 1, timers := [], timeout := none, invoked := [], fired := 0 }

/-- One call `executedFunction(...args)`: `clearTimeout(timeout)` and then
`timeout = setTimeout(later, wait)` with `later` capturing `args`. -/
def executedFunction {α : Type} (wait : Nat) (args : α) (s : DebounceState α) :
    DebounceState α :=
  { s with
    timers := clearTimeout s.timeout s.timers ++ [⟨s.nextId, s.now + timerDelay wait, args⟩]
    timeout := some s.nextId
    nextId := s.nextId + 1 }

/-- The scheduled closure `later`: `clearTimeout(timeout); func(...args)`. -/
def later {α : Type} (args : α) (s : DebounceState α) : DebounceState α :=
  { s with
    timers := clearTimeout s.timeout s.timers
    invoked := s.invoked ++ [args] }

/-- One timer task: the next runnable registration leaves the table and its callback
`later` runs. -/
def DebounceState.timerTask {α : Type} (s : DebounceState α) : DebounceState α :=
  match nextDue s.timers s.now with
  | none => s
  | some tm =>
    later tm.payload
      { s with timers := s.timers.filter (fun u => u.id != tm.id), fired := s.fired + 1 }

/-- One host event. -/
def DebounceState.host {α : Type} (s : DebounceState α) : HostEvent → DebounceState α
  | HostEvent.elapse d => { s with now := s.now + d }
  | HostEvent.timerTask => s.timerTask

/-- A list of host events, in order. -/
def DebounceState.runHost {α : Type} (hs : List HostEvent) (s : DebounceState α) :
    DebounceState α :=
  hs.foldl DebounceState.host s

/-- A burst of calls: each entry `(hs, args)` is a call with `args` made after the host
events `hs` that follow the previous call. -/
def DebounceState.burst {α : Type} (wait : Nat) (calls : List (List HostEvent × α))
    (s : DebounceState α) : DebounceState α :=
  calls.foldl (fun st c => executedFunction wait c.2 (st.runHost c.1)) s

/-- The arguments of the last call of a burst that starts with `first`. -/
def lastArgs {α : Type} (first : α) (rest : List (List HostEvent × α)) : α :=
  (rest.map Prod.snd).getLast?.getD first

/-- The wrapper is armed with `a`: exactly one registration is pending, it is the one
held in `timeout`, it carries `a` and is runnable from `due` on; no timer callback has
run and `func` has not been called. -/
def DebounceState.Armed {α : Type} (a : α) (due : Nat) (s : DebounceState α) : Prop :=
  ∃ id, s.timers = [⟨id, due, a⟩] ∧ s.timeout = some id ∧ s.invoked = [] ∧ s.fired = 0

/-- The wrapper has fired with `a`: nothing is pending, one timer callback has run and
`func` has been called once, with `a`. -/
def DebounceState.Fired {α : Type} (a : α) (s : DebounceState α) : Prop :=
  s.timers = [] ∧ s.invoked = [a] ∧ s.fired = 1

/-! ## `throttle(func, limit)` -/

/-- What one run of `func` does as far as the wrapper can tell: the calls of the
wrapper it makes itself while it runs (`this` and arguments of each, in order), and
whether it ends by throwing. An exception of such an inner call is taken to leave
`func` uncaught. -/
structure FuncRun (γ α : Type) where
  calls : List (γ × α)
  throws : Bool
deriving Repr, DecidableEq

/-- The state of one wrapper returned by `throttle`: host clock and timers, the
captured flag `inThrottle` (`undefined` counts as `false`), and the log of the calls
made to `func` with their `this` value and arguments. -/
structure ThrottleState (γ α : Type) where
  now : Nat
  nextId : Nat
  timers : List (Timer Unit)
  inThrottle : Bool
  invoked : List (γ × α)
deriving Repr, DecidableEq

/-- State right after `throttle(func, limit)` returned, at time `t0`. -/
def throttle {γ α : Type} (t0 : Nat) : ThrottleState γ α :=
  { now := t0, nextId := 1, timers := [], inThrottle := false, invoked := [] }

/-- One call of the wrapper with `this = context` and `arguments = args`:
`if (!inThrottle) { func.apply(context, args); inThrottle = true;
setTimeout(() => inThrottle = false, limit); }`.
`func` gives the run of the underlying function from the log of its calls so far (the
current one last). The run comes first: its inner calls of the wrapper are made in
turn, and when the run throws, the exception leaves the wrapper before the flag is set
and before the timer is registered. The first argument is the room left on the call
stack; a call with none left throws. The result is the new state and whether the call
threw. -/
def throttled {γ α : Type} (func : List (γ × α) → FuncRun γ α) (limit : Nat) :
    Nat → γ → α → ThrottleState γ α → ThrottleState γ α × Bool
  | 0, _, _, s => (s, true)
  | stack + 1, context, args, s =>
    if !s.inThrottle then
      let s1 := { s with invoked := s.invoked ++ [(context, args)] }
      let r := (func s1.invoked).calls.foldl
        (fun acc c => if acc.2 then acc else throttled func limit stack c.1 c.2 acc.1)
        (s1, false)
      if r.2 || (func s1.invoked).throws then (r.1, true)
      else
        ({ r.1 with
            inThrottle := true
            timers := r.1.timers ++ [⟨r.1.nextId, r.1.now + timerDelay limit, ()⟩]
            nextId := r.1.nextId + 1 }, false)
    else (s, false)

/-- One timer task: the next runnable registration leaves the table and its callback
`() => inThrottle = false` runs. -/
def ThrottleState.timerTask {γ α : Type} (s : ThrottleState γ α) : ThrottleState γ α :=
  match nextDue s.timers s.now with
  | none => s
  | some tm =>
    { s with timers := s.timers.filter (fun u => u.id != tm.id), inThrottle := false }

/-- One host event. -/
def ThrottleState.host {γ α : Type} (s : ThrottleState γ α) : HostEvent → ThrottleState γ α
  | HostEvent.elapse d => { s with now := s.now + d }
  | HostEvent.timerTask => s.timerTask

/-- What happens to a throttled wrapper: a host event or a call. -/
inductive ThrottleEvent (γ α : Type) where
  | host (h : HostEvent)
  | call (context : γ) (args : α)
deriving Repr, DecidableEq

/-- The time that passes during a list of events. -/
def ThrottleEvent.elapsed {γ α : Type} : List (ThrottleEvent γ α) → Nat
  | [] => 0
  | ThrottleEvent.host (HostEvent.elapse d) :: es => d + ThrottleEvent.elapsed es
  | _ :: es => ThrottleEvent.elapsed es

/-- One event; a call is made with `stack` frames of room, an exception it throws is
left to the caller. -/
def ThrottleState.step {γ α : Type} (func : List (γ × α) → FuncRun γ α) (limit stack : Nat)
    (s : ThrottleState γ α) : ThrottleEvent γ α → ThrottleState γ α
  | ThrottleEvent.host h => s.host h
  | ThrottleEvent.call context args => (throttled func limit stack context args s).1

/-- A list of events, in order. -/
def ThrottleState.run {γ α : Type} (func : List (γ × α) → FuncRun γ α) (limit stack : Nat)
    (es : List (ThrottleEvent γ α)) (s : ThrottleState γ α) : ThrottleState γ α :=
  es.foldl (ThrottleState.step func limit stack) s

/-- A series of calls with no timer task in between: each entry `(gap, context, args)`
is a call made `gap` milliseconds after the previous one. -/
def ThrottleState.series {γ α : Type} (func : List (γ × α) → FuncRun γ α) (limit stack : Nat)
    (calls : List (Nat × γ × α)) (s : ThrottleState γ α) : ThrottleState γ α :=
  calls.foldl
    (fun st c => (throttled func limit stack c.2.1 c.2.2 (st.host (HostEvent.elapse c.1))).1) s

/-- A run of `func` that returns normally and makes no call of the wrapper. -/
def plainRun {γ α : Type} : FuncRun γ α := { calls := [], throws := false }

/-- The wrapper is closed with log `l`: the flag is set and the one pending
registration is the reset, runnable from `due` on. -/
def ThrottleState.Closed {γ α : Type} (due : Nat) (l : List (γ × α)) (s : ThrottleState γ α) :
    Prop :=
  s.inThrottle = true ∧ s.invoked = l ∧ ∃ id, s.timers = [⟨id, due, ()⟩]

/-! ## Strings and class lists -/

/-- The code points that `String.prototype.trim` strips: ECMAScript `WhiteSpace`
(TAB, VT, FF, ZWNBSP and the Unicode space separators) and `LineTerminator`
(LF, CR, LS, PS). -/
def isJsWhiteSpace (c : Char) : Bool :=
  [0x9, 0xA, 0xB, 0xC, 0xD, 0x20, 0xA0, 0x1680, 0x2028, 0x2029, 0x202F, 0x205F, 0x3000,
    0xFEFF].contains c.toNat || (0x2000 ≤ c.toNat && c.toNat ≤ 0x200A)

/-- The call `s.trim()`: strips leading and trailing white space. -/
def jsTrim (s : String) : String :=
  String.mk ((s.data.dropWhile isJsWhiteSpace).reverse.dropWhile isJsWhiteSpace).reverse

/-- The conversion `ToBoolean` of a string: only the empty string is falsy. -/
def truthy (s : String) : Bool := s != ""

/-- The call `classList.add(c)`: a token list holds each token once. -/
def classListAdd (classList : List String) (c : String) : List String :=
  if classList.contains c then classList else classList ++ [c]

/-- The call `classList.remove(c)`. -/
def classListRemove (classList : List String) (c : String) : List String :=
  classList.filter (fun x => x != c)

/-- The call `classList.toggle(c)`: removes the token when present, adds it otherwise. -/
def classListToggle (classList : List String) (c : String) : List String :=
  if classList.contains c then classListRemove classList c else classList ++ [c]

/-! ## The document -/

/-- An element: local name, parent link (`none` for a child of the document node),
content attributes, class list and the `value` property of form controls. -/
structure Element where
  tagName : String
  parent : Option Nat
  attributes : List (String × String)
  classList : List String
  value : String
deriving Repr, DecidableEq

/-- The elements of the page in document order; an element is named by its index. -/
abbrev Document := List Element

/-- The parent element of element `i`, if it has one. -/
def parentOf (doc : Document) (i : Nat) : Option Nat :=
  match doc[i]? with
  | none => none
  | some e => e.parent

/-- The proper ancestors of element `i`, nearest first (`fuel` bounds the walk). -/
def ancestors (doc : Document) : Nat → Nat → List Nat
  | 0, _ => []
  | fuel + 1, i =>
    match parentOf doc i with
    | none => []
    | some p => p :: ancestors doc fuel p

/-- The call `a.contains(target)`: `target` is `a` itself or one of its descendants. -/
def contains (doc : Document) (a target : Nat) : Bool :=
  a == target || (ancestors doc doc.length target).contains a

/-- The call `el.getAttribute(name)`; `none` is `null`. -/
def getAttribute (doc : Document) (i : Nat) (name : String) : Option String :=
  match doc[i]? with
  | none => none
  | some e => e.attributes.lookup name

/-- The first index from `start` on whose element satisfies `p`. -/
def firstIndex (p : Nat → Element → Bool) : Nat → List Element → Option Nat
  | _, [] => none
  | start, e :: es => if p start e then some start else firstIndex p (start + 1) es

/-- All indices from `start` on whose element satisfies `p`, in document order. -/
def allIndices (p : Nat → Element → Bool) : Nat → List Element → List Nat
  | _, [] => []
  | start, e :: es =>
    if p start e then start :: allIndices p (start + 1) es else allIndices p (start + 1) es

/-- The call `document.querySelector('.' + c)`: the first element carrying the class. -/
def querySelectorClass (doc : Document) (c : String) : Option Nat :=
  firstIndex (fun _ e => e.classList.contains c) 0 doc

/-- The call `root.querySelector(tag)`: the first descendant of `root` (not `root` itself) with
that local name. -/
def querySelectorWithin (doc : Document) (root : Nat) (tag : String) : Option Nat :=
  firstIndex (fun i e => e.tagName == tag && (ancestors doc doc.length i).contains root) 0 doc

/-- The call `document.querySelectorAll('form textarea')`: the `textarea` elements that have a
`form` ancestor. -/
def querySelectorAllFormTextarea (doc : Document) : List Nat :=
  allIndices (fun i e => e.tagName == "textarea" &&
    (ancestors doc doc.length i).any (fun a =>
      match doc[a]? with
      | none => false
      | some f => f.tagName == "form")) 0 doc

/-- Replaces element `i` of the document by `f` of it. -/
def updateElement (doc : Document) (i : Nat) (f : Element → Element) : Document :=
  List.modify f i doc

/-! ## Required-field validation (the `submit` listener of every form) -/

/-- What one run of the `submit` listener leaves behind: the required fields in
document order, whether `e.preventDefault()` was called, and the alerts shown. -/
structure SubmitOutcome where
  fields : List Element
  defaultPrevented : Bool
  alerts : List String
deriving Repr, DecidableEq

/-- The body of `requiredFields.forEach(field => ...)` on the pair of the fields
already visited and the variable `isValid`. -/
def validateField (acc : List Element × Bool) (field : Element) : List Element × Bool :=
  if !truthy (jsTrim field.value) then
    (acc.1 ++ [{ field with classList := classListAdd field.classList "is-invalid" }], false)
  else
    (acc.1 ++ [{ field with classList := classListRemove field.classList "is-invalid" }], acc.2)

/-- The `submit` listener, given `form.querySelectorAll('[required]')`. -/
def submitListener (requiredFields : List Element) : SubmitOutcome :=
  let r := requiredFields.foldl validateField ([], true)
  if !r.2 then
    { fields := r.1, defaultPrevented := true
      alerts := ["Bitte füllen Sie alle Pflichtfelder aus."] }
  else
    { fields := r.1, defaultPrevented := false, alerts := [] }

/-! ## Unread badge (`updateUnreadCount`) -/

/-- The Number values a count can take: a non-negative integer that the Number type
(IEEE 754 binary64) holds exactly, or `Infinity`. -/
inductive JSNumber where
  | finite (value : Nat)
  | infinity
deriving Repr, DecidableEq

/-- The number of digits of `n` in base `b` (`fuel` bounds the walk; `n` itself is
enough). -/
def digitCount (b : Nat) : Nat → Nat → Nat
  | 0, _ => 0
  | fuel + 1, n => if n = 0 then 0 else 1 + digitCount b fuel (n / b)

/-- Rounding to nearest with ties to even: the significand `q` goes up by one when the
remainder `r` is above `half`, or equal to it with `q` odd. -/
def roundSignificand (q r half : Nat) : Nat :=
  if half < r || (r == half && q % 2 == 1) then q + 1 else q

/-- The Number that `response.json()` yields for the integer literal `n`: `n` itself
below `2 ^ 53`; above, `n` is rounded to 53 significant bits, to nearest with ties to
the even significand, and to `Infinity` when the result would exceed the largest
Number, `(2 ^ 53 - 1) * 2 ^ 971`. -/
def toDouble (n : Nat) : JSNumber :=
  if n < 2 ^ 53 then JSNumber.finite n
  else
    let e := digitCount 2 n n - 53
    let q1 := roundSignificand (n / 2 ^ e) (n % 2 ^ e) (2 ^ (e - 1))
    if e < 971 || (e == 971 && q1 < 2 ^ 53) then JSNumber.finite (q1 * 2 ^ e)
    else JSNumber.infinity

/-- The comparison `x > 0`. -/
def JSNumber.isPositive : JSNumber → Bool
  | JSNumber.finite v => decide (0 < v)
  | JSNumber.infinity => true

/-- Among the multiples of `10 ^ z` next to `v` (the one below or at `v`, and the one
above), the one that denotes the Number `v` (is rounded to it); when both do, the one
closer to `v`, and of two equally close ones the one with the even multiplier. -/
def pickDigits (v z : Nat) : Option Nat :=
  let p := 10 ^ z
  let lo := v / p * p
  let hi := lo + p
  let okLo := lo != 0 && toDouble lo == JSNumber.finite v
  let okHi := toDouble hi == JSNumber.finite v
  if okLo && okHi then
    if v - lo < hi - v then some lo
    else if hi - v < v - lo then some hi
    else if (v / p) % 2 == 0 then some lo else some hi
  else if okLo then some lo
  else if okHi then some hi
  else none

/-- The integer with the fewest significant digits that denotes the Number `v`, found
by trying the largest number of trailing zeros first; the result is the integer and
its number of trailing zeros. With no trailing zero, `v` denotes itself. -/
def shortestDigits (v : Nat) : Nat → Nat × Nat
  | 0 => (v, 0)
  | z + 1 =>
    match pickDigits v (z + 1) with
    | some c => (c, z + 1)
    | none => shortestDigits v z

/-- The conversion `ToString` of a Number (`Number::toString`, radix 10) on the values
of `JSNumber`: the shortest digit string `s` that denotes the Number, written as an
integer when it has at most 21 digits and as `d.ddde+x` otherwise. -/
def numberToString : JSNumber → String
  | JSNumber.infinity => "Infinity"
  | JSNumber.finite v =>
    if v = 0 then "0"
    else
      let cz := shortestDigits v (digitCount 10 v v)
      let n := digitCount 10 cz.1 cz.1
      if n ≤ 21 then Nat.repr cz.1
      else
        match Nat.toDigits 10 (cz.1 / 10 ^ cz.2) with
        | [] => ""
        | [d] => String.mk [d] ++ "e+" ++ Nat.repr (n - 1)
        | d :: ds => String.mk (d :: '.' :: ds) ++ "e+" ++ Nat.repr (n - 1)

/-- The `.unread-badge` element: its text and its `style.display`. -/
structure Badge where
  textContent : String
  display : String
deriving Repr, DecidableEq

/-- The part of the page `updateUnreadCount` touches: the element returned by
`document.querySelector('.unread-badge')` (`none` is `null`) and the console output. -/
structure BadgePage where
  badge : Option Badge
  console : List String
deriving Repr, DecidableEq

/-- How `fetch('/messages/unread_count')` settles: with a body `{"unread_count": n}`,
`n` an integer literal, or with a network or parse error. -/
inductive FetchResult where
  | body (unread_count : Nat)
  | failure (error : String)
deriving Repr, DecidableEq

/-- The function `updateUnreadCount()`. `current_user` is `none` when the global is
undefined and `some b` when it is defined with truthiness `b`; `response` is how the
request settles if it is made. `response.json()` turns the literal of the body into a
Number, and the assignment to `textContent` converts that Number to a string. -/
def updateUnreadCount (current_user : Option Bool) (response : FetchResult)
    (page : BadgePage) : BadgePage :=
  match current_user with
  | some true =>
    match response with
    | .body n =>
      let unread_count := toDouble n
      match page.badge with
      | some badge =>
        if unread_count.isPositive then
          { page with
            badge := some { badge with textContent := numberToString unread_count
                                       display := "flex" } }
        else
          { page with badge := some { badge with display := "none" } }
      | none => page
    | .failure error =>
      { page with console := page.console ++ ["Could not update unread count: " ++ error] }
  | _ => page

/-! ## Lazy images (the `IntersectionObserver` callback) -/

/-- An `img[data-src]`: its `src` and `data-src` attributes and its class list. -/
structure Image where
  src : String
  dataSrc : String
  classList : List String
deriving Repr, DecidableEq

/-- The two members of an `IntersectionObserverEntry` the callback reads; the target
is named by its index in `images`. -/
structure IntersectionObserverEntry where
  target : Nat
  isIntersecting : Bool
deriving Repr, DecidableEq

/-- The images, the targets `imageObserver` is observing, and the log of the
assignments `img.src = ...` (one entry per assignment, naming the image). -/
structure LazyState where
  images : List Image
  observed : List Nat
  srcWrites : List Nat
deriving Repr, DecidableEq

/-- After `images.forEach(img => imageObserver.observe(img))`. -/
def lazyInit (images : List Image) : LazyState :=
  { images := images, observed := List.range images.length, srcWrites := [] }

/-- An image after `img.src = img.dataset.src; img.classList.remove('lazy')`. -/
def Image.load (img : Image) : Image :=
  { img with src := img.dataSrc, classList := classListRemove img.classList "lazy" }

/-- The body of `entries.forEach(entry => ...)`. -/
def onEntry (s : LazyState) (entry : IntersectionObserverEntry) : LazyState :=
  if entry.isIntersecting then
    { images := List.modify Image.load entry.target s.images
      observed := s.observed.filter (fun t => t != entry.target)
      srcWrites := s.srcWrites ++ [entry.target] }
  else s

/-- The observer callback on one batch of entries. -/
def observerCallback (entries : List IntersectionObserverEntry) (s : LazyState) : LazyState :=
  entries.foldl onEntry s

/-- A sequence of callback invocations, one per batch of entries. -/
def runCallbacks (batches : List (List IntersectionObserverEntry)) (s : LazyState) : LazyState :=
  batches.foldl (fun st batch => observerCallback batch st) s

/-- The number of entries for image `i` with `isIntersecting = true` among `entries`. -/
def intersectingFor (i : Nat) (entries : List IntersectionObserverEntry) : Nat :=
  (entries.filter (fun e => e.isIntersecting && e.target == i)).length

/-! ## Responsive navigation toggle -/

/-- The `click` listener of the toggle: `navMenu.classList.toggle('nav-menu-active')`. -/
def toggleListener (navMenu : Nat) (doc : Document) : Document :=
  updateElement doc navMenu
    (fun e => { e with classList := classListToggle e.classList "nav-menu-active" })

/-- The `click` listener of the document: closes the menu when the click is outside
both the menu and the toggle. -/
def documentClickListener (navToggle navMenu : Option Nat) (target : Nat) (doc : Document) :
    Document :=
  match navMenu, navToggle with
  | some m, some t =>
    if !contains doc m target && !contains doc t target then
      updateElement doc m
        (fun e => { e with classList := classListRemove e.classList "nav-menu-active" })
    else doc
  | _, _ => doc

/-- One click on element `target`. The event bubbles from the target to the document:
the toggle's listener (registered only when both elements exist) runs when the toggle
is on the path, then the document's listener runs. -/
def navClick (navToggle navMenu : Option Nat) (target : Nat) (doc : Document) : Document :=
  let doc1 :=
    match navToggle, navMenu with
    | some t, some m => if contains doc t target then toggleListener m doc else doc
    | _, _ => doc
  documentClickListener navToggle navMenu target doc1

/-- Whether element `i` carries the class `c`. -/
def hasClass (doc : Document) (i : Nat) (c : String) : Bool :=
  match doc[i]? with
  | none => false
  | some e => e.classList.contains c

/-! ## Draft autosave (the `longForms.forEach` block) -/

/-- The store `localStorage`: keys and their values. -/
abbrev Storage := List (String × String)

/-- The call `localStorage.getItem(key)`; `none` is `null`. -/
def getItem (storage : Storage) (key : String) : Option String :=
  storage.lookup key

/-- The part of the page the draft block touches: the document, the storage, the
`setInterval` registrations it made (textarea and key) and the `submit` listeners it
added (element listened on and key). -/
structure DraftPage where
  doc : Document
  localStorage : Storage
  autosaveTimers : List (Nat × String)
  submitListeners : List (Nat × String)
deriving Repr, DecidableEq

/-- The body of `longForms.forEach(form => ...)` for one element `form` of the list.
`rowsGt5` is the host's comparison `textarea.getAttribute('rows') > 5` (the attribute
string, or `null`, converted to a number). -/
def draftBlock (rowsGt5 : Option String → Bool) (pathname : String) (page : DraftPage)
    (form : Nat) : DraftPage :=
  match querySelectorWithin page.doc form "textarea" with
  | none => page
  | some textarea =>
    if rowsGt5 (getAttribute page.doc textarea "rows") then
      let formKey := "draft_" ++ pathname
      let doc1 :=
        match getItem page.localStorage formKey with
        | none => page.doc
        | some savedDraft =>
          if truthy savedDraft then
            updateElement page.doc textarea (fun e => { e with value := savedDraft })
          else page.doc
      { page with
        doc := doc1
        autosaveTimers := page.autosaveTimers ++ [(textarea, formKey)]
        submitListeners := page.submitListeners ++ [(form, formKey)] }
    else page

/-- The draft block at page load: `longForms` is
`document.querySelectorAll('form textarea')`. -/
def draftInit (rowsGt5 : Option String → Bool) (pathname : String) (page : DraftPage) :
    DraftPage :=
  (querySelectorAllFormTextarea page.doc).foldl (draftBlock rowsGt5 pathname) page

/-- The `value` of element `i`. -/
def valueOf (doc : Document) (i : Nat) : Option String :=
  match doc[i]? with
  | none => none
  | some e => some e.value

/-! ## Smooth-scroll anchors -/

/-- The exception `querySelector` throws for a string that is not a selector. -/
inductive DOMException where
  | syntaxError (selector : String)
deriving Repr, DecidableEq

/-- An identifier made of ASCII letters, digits, `_` and `-` that starts with a letter
or `_`. -/
def isSimpleIdent : List Char → Bool
  | [] => false
  | c :: rest =>
    (c.isAlpha || c == '_') && rest.all (fun x => x.isAlphanum || x == '_' || x == '-')

/-- The call `document.querySelector(selector)` for the strings an `a[href^="#"]` link can pass.
A bare `#` is not a selector (a hash token needs a name) and throws; `#name` with a
simple identifier selects the first element whose `id` is `name`; for every other
string the result is the host's, given by `other`. -/
def querySelector (other : String → Except DOMException (Option Nat)) (doc : Document)
    (selector : String) : Except DOMException (Option Nat) :=
  match selector.data with
  | ['#'] => .error (.syntaxError selector)
  | '#' :: name =>
    if isSimpleIdent name then
      .ok (firstIndex (fun _ e => e.attributes.lookup "id" == some (String.mk name)) 0 doc)
    else other selector
  | _ => other selector

/-- What one run of the anchor's `click` listener leaves behind: whether
`e.preventDefault()` was called, the `scrollIntoView` calls made (element and
`behavior`), and the exception that left the listener, if any. -/
structure AnchorOutcome where
  defaultPrevented : Bool
  scrolled : List (Nat × String)
  uncaught : Option DOMException
deriving Repr, DecidableEq

/-- The `click` listener of an `a[href^="#"]` link whose `href` attribute is `href`:
`e.preventDefault()`, then `document.querySelector(href)`, then `scrollIntoView` on
the result when there is one. -/
def anchorClick (other : String → Except DOMException (Option Nat)) (doc : Document)
    (href : String) : AnchorOutcome :=
  match querySelector other doc href with
  | .error ex => { defaultPrevented := true, scrolled := [], uncaught := some ex }
  | .ok none => { defaultPrevented := true, scrolled := [], uncaught := none }
  | .ok (some target) =>
    { defaultPrevented := true, scrolled := [(target, "smooth")], uncaught := none }

/-! ## The export statement -/

/-- The values the export statement can meet: a function of this script (named by its
declaration), an object of the host, and an object literal with its members. -/
inductive JSValue where
  | func (name : String)
  | host (name : String)
  | object (members : List (String × JSValue))

/-- The error an unresolvable identifier raises. -/
inductive JSError where
  | referenceError (identifier : String)
deriving Repr, DecidableEq

/-- The global bindings: names and their values. -/
abbrev GlobalEnv := List (String × JSValue)

/-- The function declarations at the top level of the script; they are hoisted and
become global bindings. -/
def topLevelFunctions : List String := ["debounce", "throttle"]

/-- The function declarations inside the `DOMContentLoaded` callback; they are bound
in the scope of that callback only. -/
def callbackFunctions : List String := ["updateUnreadCount"]

/-- The global bindings when the top-level statements start to run: the hoisted
functions of the script on top of what the host page provides. -/
def instantiateGlobals (hostGlobals : GlobalEnv) : GlobalEnv :=
  topLevelFunctions.map (fun n => (n, JSValue.func n)) ++ hostGlobals

/-- Resolution of an identifier at the top level. -/
def resolveIdentifier (env : GlobalEnv) (name : String) : Except JSError JSValue :=
  match env.lookup name with
  | some v => .ok v
  | none => .error (.referenceError name)

/-- The object literal `{ a, b, ... }` of shorthand properties: each name is resolved
in turn, the first failure is thrown. -/
def shorthandObject (env : GlobalEnv) : List String → Except JSError (List (String × JSValue))
  | [] => .ok []
  | n :: ns =>
    match resolveIdentifier env n with
    | .error err => .error err
    | .ok v =>
      match shorthandObject env ns with
      | .error err => .error err
      | .ok ms => .ok ((n, v) :: ms)

/-- What evaluating the script leaves behind: the properties set on `window`, the
number of `DOMContentLoaded` listeners registered, and the error that ended the
evaluation, if any. -/
structure ScriptOutcome where
  windowProperties : List (String × JSValue)
  domContentLoadedListeners : Nat
  thrown : Option JSError

/-- The top-level statements of the script, in order:
`document.addEventListener('DOMContentLoaded', ...)` and
`window.miniForum = { updateUnreadCount, debounce, throttle }`. -/
def evalScript (hostGlobals : GlobalEnv) : ScriptOutcome :=
  let env := instantiateGlobals hostGlobals
  match resolveIdentifier env "document" with
  | .error err => { windowProperties := [], domContentLoadedListeners := 0, thrown := some err }
  | .ok _ =>
    match resolveIdentifier env "window" with
    | .error err =>
      { windowProperties := [], domContentLoadedListeners := 1, thrown := some err }
    | .ok _ =>
      match shorthandObject env ["updateUnreadCount", "debounce", "throttle"] with
      | .error err =>
        { windowProperties := [], domContentLoadedListeners := 1, thrown := some err }
      | .ok members =>
        { windowProperties := [("miniForum", JSValue.object members)]
          domContentLoadedListeners := 1, thrown := none }

/-- The globals of a page that loads this script: `window` and `document`. -/
def browserGlobals : GlobalEnv :=
  [("window", JSValue.host "window"), ("document", JSValue.host "document")]

/-- Whether `window` has a property of that name after the script ran. -/
def ScriptOutcome.hasWindowProperty (r : ScriptOutcome) (name : String) : Bool :=
  (r.windowProperties.map Prod.fst).contains name

/-! # Theorems -/

/-! ## Properties of `debounce` -/

theorem timerDelay_of_lt (timeout : Nat) (h : timeout < 2 ^ 31) : timerDelay timeout = timeout := by
  have h1 : timeout % 2 ^ 32 = timeout := Nat.mod_eq_of_lt (by omega)
  unfold timerDelay
  rw [h1, if_pos h]

theorem nextDue_singleton {β : Type} (tm : Timer β) (t : Nat) :
    nextDue [tm] t = if tm.due ≤ t then some tm else none := by
  simp [nextDue, earliest]

theorem executedFunction_first {α : Type} (wait t0 : Nat) (a : α) :
    (executedFunction wait a (debounce t0)).Armed a (t0 + timerDelay wait) ∧
      (executedFunction wait a (debounce t0)).now = t0 :=
  ⟨⟨1, by simp [executedFunction, debounce, clearTimeout]⟩, rfl⟩

theorem executedFunction_armed {α : Type} (wait : Nat) (a b : α) (due : Nat)
    (s : DebounceState α) (h : s.Armed b due) :
    (executedFunction wait a s).Armed a (s.now + timerDelay wait) ∧
      (executedFunction wait a s).now = s.now := by
  obtain ⟨id, ht, hto, hi, hf⟩ := h
  refine ⟨⟨s.nextId, ?_, rfl, hi, hf⟩, rfl⟩
  simp [executedFunction, ht, hto, clearTimeout]

theorem executedFunction_fired {α : Type} (wait : Nat) (a : α) (s : DebounceState α) :
    (executedFunction wait a s).fired = s.fired := rfl

theorem host_fired_le {α : Type} (s : DebounceState α) (h : HostEvent) :
    s.fired ≤ (s.host h).fired := by
  cases h with
  | elapse d => exact Nat.le_refl _
  | timerTask =>
    simp only [DebounceState.host, DebounceState.timerTask]
    cases nextDue s.timers s.now with
    | none => exact Nat.le_refl _
    | some tm => simp [later]

theorem runHost_fired_le {α : Type} (hs : List HostEvent) (s : DebounceState α) :
    s.fired ≤ (s.runHost hs).fired := by
  induction hs generalizing s with
  | nil => exact Nat.le_refl _
  | cons h t ih =>
    exact Nat.le_trans (host_fired_le s h) (ih (s.host h))

theorem burst_fired_le {α : Type} (wait : Nat) (calls : List (List HostEvent × α))
    (s : DebounceState α) : s.fired ≤ (s.burst wait calls).fired := by
  induction calls generalizing s with
  | nil => exact Nat.le_refl _
  | cons c cs ih =>
    have h1 := runHost_fired_le c.1 s
    have h2 := ih (executedFunction wait c.2 (s.runHost c.1))
    rw [executedFunction_fired] at h2
    exact Nat.le_trans h1 h2

theorem host_armed {α : Type} (a : α) (due : Nat) (s : DebounceState α) (h : HostEvent)
    (ha : s.Armed a due) : (s.host h).Armed a due ∨ (s.host h).Fired a := by
  obtain ⟨id, ht, hto, hi, hf⟩ := ha
  cases h with
  | elapse d => exact Or.inl ⟨id, ht, hto, hi, hf⟩
  | timerTask =>
    simp only [DebounceState.host, DebounceState.timerTask, ht, nextDue_singleton]
    by_cases hd : due ≤ s.now
    · right
      simp [hd, later, clearTimeout, hto, hi, hf, DebounceState.Fired]
    · left
      simp only [hd, if_false]
      exact ⟨id, ht, hto, hi, hf⟩

theorem host_fired_state {α : Type} (a : α) (s : DebounceState α) (h : HostEvent)
    (hs : s.Fired a) : (s.host h).Fired a := by
  obtain ⟨ht, hi, hf⟩ := hs
  cases h with
  | elapse d => exact ⟨ht, hi, hf⟩
  | timerTask =>
    simp only [DebounceState.host, DebounceState.timerTask, ht, nextDue, earliest]
    exact ⟨ht, hi, hf⟩

theorem runHost_fired_state {α : Type} (a : α) (hs : List HostEvent) (s : DebounceState α)
    (h : s.Fired a) : (s.runHost hs).Fired a := by
  induction hs generalizing s with
  | nil => exact h
  | cons e t ih => exact ih (s.host e) (host_fired_state a s e h)

theorem runHost_armed {α : Type} (a : α) (due : Nat) (hs : List HostEvent)
    (s : DebounceState α) (ha : s.Armed a due) :
    (s.runHost hs).Armed a due ∨ (s.runHost hs).Fired a := by
  induction hs generalizing s with
  | nil => exact Or.inl ha
  | cons e t ih =>
    rcases host_armed a due s e ha with h | h
    · exact ih (s.host e) h
    · exact Or.inr (runHost_fired_state a t (s.host e) h)

theorem runHost_armed_early {α : Type} (a : α) (due : Nat) (hs : List HostEvent)
    (s : DebounceState α) (ha : s.Armed a due) (hlt : s.now + elapsed hs < due) :
    (s.runHost hs).Armed a due ∧ (s.runHost hs).now = s.now + elapsed hs := by
  induction hs generalizing s with
  | nil => exact ⟨ha, rfl⟩
  | cons e t ih =>
    cases e with
    | elapse d =>
      simp only [elapsed] at hlt
      have h1 : (s.host (HostEvent.elapse d)).Armed a due := by
        obtain ⟨id, ht, hto, hi, hf⟩ := ha
        exact ⟨id, ht, hto, hi, hf⟩
      have h2 := ih (s.host (HostEvent.elapse d)) h1
        (by simp only [DebounceState.host]; omega)
      refine ⟨h2.1, ?_⟩
      have h3 : (s.host (HostEvent.elapse d)).now = s.now + d := rfl
      have h4 := h2.2
      rw [h3] at h4
      simp only [elapsed]
      rw [show s.runHost (HostEvent.elapse d :: t)
        = (s.host (HostEvent.elapse d)).runHost t from rfl, h4]
      omega
    | timerTask =>
      simp only [elapsed] at hlt
      have h0 : s.host HostEvent.timerTask = s := by
        obtain ⟨id, ht, _, _, _⟩ := ha
        have hnd : ¬ due ≤ s.now := by omega
        simp [DebounceState.host, DebounceState.timerTask, ht, nextDue_singleton, hnd]
      have h2 := ih s ha hlt
      rw [show s.runHost (HostEvent.timerTask :: t)
        = (s.host HostEvent.timerTask).runHost t from rfl, h0]
      exact h2

theorem getLast?_getD_cons {α : Type} (x a : α) (l : List α) :
    (x :: l).getLast?.getD a = l.getLast?.getD x := by
  induction l generalizing x a with
  | nil => rfl
  | cons y ys ih => rw [List.getLast?_cons_cons, ih y a, ih y x]

theorem lastArgs_cons {α : Type} (a : α) (c : List HostEvent × α)
    (cs : List (List HostEvent × α)) : lastArgs a (c :: cs) = lastArgs c.2 cs := by
  simp only [lastArgs, List.map_cons, getLast?_getD_cons]

/-- A burst during which no timer callback ran leaves the wrapper armed with the
arguments of its last call. -/
theorem burst_armed {α : Type} (wait : Nat) (rest : List (List HostEvent × α)) (a : α)
    (s : DebounceState α) (h : s.Armed a (s.now + timerDelay wait))
    (hquiet : (s.burst wait rest).fired = 0) :
    (s.burst wait rest).Armed (lastArgs a rest) ((s.burst wait rest).now + timerDelay wait) := by
  induction rest generalizing a s with
  | nil => simpa [DebounceState.burst, lastArgs] using h
  | cons c cs ih =>
    have hstep : s.burst wait (c :: cs)
        = (executedFunction wait c.2 (s.runHost c.1)).burst wait cs := rfl
    rw [hstep] at hquiet ⊢
    rw [lastArgs_cons]
    rcases runHost_armed a _ c.1 s h with h1 | h1
    · have h2 := executedFunction_armed wait c.2 a _ (s.runHost c.1) h1
      exact ih c.2 _ (by rw [h2.2]; exact h2.1) hquiet
    · exfalso
      have h3 := burst_fired_le wait cs (executedFunction wait c.2 (s.runHost c.1))
      rw [executedFunction_fired, h1.2.2] at h3
      omega

/-- Inside the 32-bit range of the delay, gaps shorter than `wait` keep every timer
task between the calls of a burst from running a callback. -/
theorem burst_quiet_of_gaps {α : Type} (wait : Nat) (hrange : wait < 2 ^ 31)
    (rest : List (List HostEvent × α)) (hgap : ∀ c ∈ rest, elapsed c.1 < wait) (a : α)
    (s : DebounceState α) (h : s.Armed a (s.now + timerDelay wait)) :
    (s.burst wait rest).fired = 0 := by
  induction rest generalizing a s with
  | nil =>
    obtain ⟨_, _, _, _, hf⟩ := h
    exact hf
  | cons c cs ih =>
    have hstep : s.burst wait (c :: cs)
        = (executedFunction wait c.2 (s.runHost c.1)).burst wait cs := rfl
    rw [hstep]
    have hc : elapsed c.1 < wait := hgap c (List.mem_cons_self _ _)
    have h1 := runHost_armed_early a _ c.1 s h
      (by rw [timerDelay_of_lt wait hrange]; omega)
    have h2 := executedFunction_armed wait c.2 a _ (s.runHost c.1) h1.1
    exact ih (fun x hx => hgap x (List.mem_cons_of_mem _ hx)) c.2 _
      (by rw [h2.2]; exact h2.1)

/-- C1. Debounce: for every `wait`, when the wrapper is called `N = rest.length + 1`
times, each call less than `wait` ms after the previous one, and no timer callback
runs in between (whatever timer tasks the host attempts), then `func` has not been
called during the burst; whatever host events follow, `func` is called at most once and
only with the arguments of the last call, and it has been called exactly once, with
those arguments, as soon as no registration is pending; and the timer does run: after
the delay of `wait` the next timer task calls `func` and leaves nothing pending. The
conclusion rests on the second hypothesis alone; inside the 32-bit range of the delay
the first one implies it (`burst_quiet_of_gaps`). -/
theorem debounce_burst_once_with_last_args {α : Type} (wait t0 : Nat) (first : α)
    (rest : List (List HostEvent × α))
    (_hgap : ∀ c ∈ rest, elapsed c.1 < wait)
    (hquiet : ((executedFunction wait first (debounce t0)).burst wait rest).fired = 0) :
    ((executedFunction wait first (debounce t0)).burst wait rest).invoked = [] ∧
    (∀ after : List HostEvent,
      ((((executedFunction wait first (debounce t0)).burst wait rest).runHost after).invoked
          = [] ∨
        (((executedFunction wait first (debounce t0)).burst wait rest).runHost after).invoked
          = [lastArgs first rest]) ∧
      ((((executedFunction wait first (debounce t0)).burst wait rest).runHost after).timers
          = [] →
        (((executedFunction wait first (debounce t0)).burst wait rest).runHost after).invoked
          = [lastArgs first rest])) ∧
    (((executedFunction wait first (debounce t0)).burst wait rest).runHost
        [HostEvent.elapse (timerDelay wait), HostEvent.timerTask]).invoked
      = [lastArgs first rest] ∧
    (((executedFunction wait first (debounce t0)).burst wait rest).runHost
        [HostEvent.elapse (timerDelay wait), HostEvent.timerTask]).timers = [] := by
  have h0 := executedFunction_first wait t0 first
  have h1 := burst_armed wait rest first (executedFunction wait first (debounce t0))
    (by rw [h0.2]; exact h0.1) hquiet
  refine ⟨?_, ?_, ?_⟩
  · obtain ⟨_, _, _, hi, _⟩ := h1
    exact hi
  · intro after
    rcases runHost_armed _ _ after _ h1 with h2 | h2
    · obtain ⟨id, ht, _, hi, _⟩ := h2
      exact ⟨Or.inl hi, fun hnil => by rw [ht] at hnil; exact absurd hnil (by simp)⟩
    · exact ⟨Or.inr h2.2.1, fun _ => h2.2.1⟩
  · obtain ⟨id, ht, hto, hi, hf⟩ := h1
    simp [DebounceState.runHost, DebounceState.host, DebounceState.timerTask, ht,
      nextDue_singleton, later, clearTimeout, hto, hi]

/-- Witness for C1: `wait = 100`, three calls 30 ms and 99 ms apart with a timer task
attempted before each later call; after a further 100 ms the timer task calls `func`
once, with the arguments of the third call. -/
theorem debounce_burst_once_with_last_args_witness :
    (((executedFunction 100 "a" (debounce 0)).burst 100
        [([HostEvent.elapse 30, HostEvent.timerTask], "b"),
         ([HostEvent.elapse 99, HostEvent.timerTask], "c")]).runHost
        [HostEvent.elapse (timerDelay 100), HostEvent.timerTask]).invoked = ["c"] :=
  (debounce_burst_once_with_last_args 100 0 "a"
    [([HostEvent.elapse 30, HostEvent.timerTask], "b"),
     ([HostEvent.elapse 99, HostEvent.timerTask], "c")]
    (by decide) (by decide)).2.2.1

/-! ## Properties of `throttle` -/

theorem throttled_plain_open {γ α : Type} (func : List (γ × α) → FuncRun γ α)
    (hplain : ∀ l, func l = plainRun) (limit stack : Nat) (c : γ) (a : α)
    (s : ThrottleState γ α) (h : s.inThrottle = false) :
    throttled func limit (stack + 1) c a s =
      ({ s with
          invoked := s.invoked ++ [(c, a)]
          inThrottle := true
          timers := s.timers ++ [⟨s.nextId, s.now + timerDelay limit, ()⟩]
          nextId := s.nextId + 1 }, false) := by
  simp [throttled, h, hplain, plainRun]

theorem throttled_closed {γ α : Type} (func : List (γ × α) → FuncRun γ α)
    (limit stack : Nat) (c : γ) (a : α) (s : ThrottleState γ α) (h : s.inThrottle = true) :
    throttled func limit (stack + 1) c a s = (s, false) := by
  simp [throttled, h]

theorem throttle_host_closed_early {γ α : Type} (due : Nat) (l : List (γ × α))
    (s : ThrottleState γ α) (h : HostEvent) (hc : s.Closed due l)
    (hlt : s.now + elapsed [h] < due) :
    (s.host h).Closed due l ∧ (s.host h).now = s.now + elapsed [h] := by
  obtain ⟨hf, hi, id, ht⟩ := hc
  cases h with
  | elapse d => exact ⟨⟨hf, hi, id, ht⟩, rfl⟩
  | timerTask =>
    simp only [elapsed, Nat.add_zero] at hlt ⊢
    have hnd : ¬ due ≤ s.now := by omega
    have h0 : s.host HostEvent.timerTask = s := by
      simp [ThrottleState.host, ThrottleState.timerTask, ht, nextDue_singleton, hnd]
    rw [h0]
    exact ⟨⟨hf, hi, id, ht⟩, rfl⟩

theorem throttle_run_closed_early {γ α : Type} (func : List (γ × α) → FuncRun γ α)
    (limit stack due : Nat) (l : List (γ × α)) (es : List (ThrottleEvent γ α))
    (s : ThrottleState γ α) (hc : s.Closed due l)
    (hlt : s.now + ThrottleEvent.elapsed es < due) :
    (s.run func limit (stack + 1) es).Closed due l := by
  induction es generalizing s with
  | nil => exact hc
  | cons e t ih =>
    have hrun : s.run func limit (stack + 1) (e :: t)
        = (s.step func limit (stack + 1) e).run func limit (stack + 1) t := rfl
    rw [hrun]
    cases e with
    | host h =>
      cases h with
      | elapse d =>
        simp only [ThrottleEvent.elapsed] at hlt
        have h1 := throttle_host_closed_early due l s (HostEvent.elapse d) hc
          (by simp only [elapsed]; omega)
        exact ih _ h1.1 (by
          simp only [ThrottleState.step]
          rw [h1.2]
          simp only [elapsed]
          omega)
      | timerTask =>
        simp only [ThrottleEvent.elapsed] at hlt
        have h1 := throttle_host_closed_early due l s HostEvent.timerTask hc
          (by simp only [elapsed]; omega)
        exact ih _ h1.1 (by
          simp only [ThrottleState.step]
          rw [h1.2]
          simp only [elapsed]
          omega)
    | call c a =>
      simp only [ThrottleEvent.elapsed] at hlt
      have h1 : s.step func limit (stack + 1) (ThrottleEvent.call c a) = s := by
        simp only [ThrottleState.step, throttled_closed func limit stack c a s hc.1]
      rw [h1]
      exact ih s hc hlt

theorem throttle_series_closed {γ α : Type} (func : List (γ × α) → FuncRun γ α)
    (limit stack due : Nat) (l : List (γ × α)) (calls : List (Nat × γ × α))
    (s : ThrottleState γ α) (hc : s.Closed due l) :
    (s.series func limit (stack + 1) calls).Closed due l ∧
    (s.series func limit (stack + 1) calls).now = s.now + (calls.map (fun c => c.1)).sum := by
  induction calls generalizing s with
  | nil => exact ⟨hc, by simp [ThrottleState.series]⟩
  | cons c cs ih =>
    have h1 : (s.host (HostEvent.elapse c.1)).Closed due l := by
      obtain ⟨hf, hi, id, ht⟩ := hc
      exact ⟨hf, hi, id, ht⟩
    have h2 : (throttled func limit (stack + 1) c.2.1 c.2.2 (s.host (HostEvent.elapse c.1))).1
        = s.host (HostEvent.elapse c.1) := by
      rw [throttled_closed func limit stack c.2.1 c.2.2 _ h1.1]
    have hs : s.series func limit (stack + 1) (c :: cs)
        = (s.host (HostEvent.elapse c.1)).series func limit (stack + 1) cs := by
      simp only [ThrottleState.series, List.foldl_cons, h2]
    rw [hs]
    have h3 := ih _ h1
    refine ⟨h3.1, ?_⟩
    rw [h3.2]
    simp only [ThrottleState.host, List.map_cons, List.sum_cons]
    omega

theorem throttle_timerTask_due {γ α : Type} (due : Nat) (l : List (γ × α))
    (s : ThrottleState γ α) (hc : s.Closed due l) (hd : due ≤ s.now) :
    (s.host HostEvent.timerTask).inThrottle = false ∧
    (s.host HostEvent.timerTask).invoked = l := by
  obtain ⟨_, hi, id, ht⟩ := hc
  simp [ThrottleState.host, ThrottleState.timerTask, ht, nextDue_singleton, hd, hi]

/-- C2, as amended. Throttle, for a `limit` below `2 ^ 31` and a `func` that returns
normally and makes no call of the wrapper: the first call calls `func` within the call
and sets the flag and the reset timer; whatever events follow within less than `limit`
ms of it (calls, passing time, timer tasks the host attempts), `func` has been called
exactly once; calls made with no timer task in between are ignored however late they
come; and once the reset timer's task has run, which is `limit` ms or more after the
first call, the next call calls `func` again within the call. -/
theorem throttle_once_per_window {γ α : Type} (func : List (γ × α) → FuncRun γ α)
    (hplain : ∀ l, func l = plainRun) (limit t0 stack : Nat) (hrange : limit < 2 ^ 31)
    (c0 : γ) (a0 : α) (within : List (ThrottleEvent γ α))
    (hwithin : ThrottleEvent.elapsed within < limit)
    (calls : List (Nat × γ × α)) (e1 e2 : Nat)
    (hlate : limit ≤ (calls.map (fun c => c.1)).sum + e1) (c1 : γ) (a1 : α) :
    throttled func limit (stack + 1) c0 a0 (throttle t0)
      = ({ now := t0, nextId := 2, timers := [⟨1, t0 + limit, ()⟩], inThrottle := true,
           invoked := [(c0, a0)] }, false) ∧
    (((throttled func limit (stack + 1) c0 a0 (throttle t0)).1).run func limit (stack + 1)
        within).invoked = [(c0, a0)] ∧
    (((throttled func limit (stack + 1) c0 a0 (throttle t0)).1).series func limit (stack + 1)
        calls).invoked = [(c0, a0)] ∧
    (throttled func limit (stack + 1) c1 a1
      ((((((throttled func limit (stack + 1) c0 a0 (throttle t0)).1).series func limit
          (stack + 1) calls).host (HostEvent.elapse e1)).host HostEvent.timerTask).host
            (HostEvent.elapse e2))).1.invoked
      = [(c0, a0), (c1, a1)] := by
  have h0 : throttled func limit (stack + 1) c0 a0 (throttle t0)
      = ({ now := t0, nextId := 2, timers := [⟨1, t0 + limit, ()⟩], inThrottle := true,
           invoked := [(c0, a0)] }, false) := by
    rw [throttled_plain_open func hplain limit stack c0 a0 _ rfl, timerDelay_of_lt limit hrange]
    rfl
  have hc : ((throttled func limit (stack + 1) c0 a0 (throttle t0)).1).Closed (t0 + limit)
      [(c0, a0)] := by
    rw [h0]
    exact ⟨rfl, rfl, 1, rfl⟩
  have hn : ((throttled func limit (stack + 1) c0 a0 (throttle t0)).1).now = t0 := by
    rw [h0]
  have h1 := throttle_run_closed_early func limit stack (t0 + limit) [(c0, a0)] within _ hc
    (by rw [hn]; omega)
  have h2 := throttle_series_closed func limit stack (t0 + limit) [(c0, a0)] calls _ hc
  have h3 : ((((throttled func limit (stack + 1) c0 a0 (throttle t0)).1).series func limit
      (stack + 1) calls).host (HostEvent.elapse e1)).Closed (t0 + limit) [(c0, a0)] := by
    obtain ⟨hf, hi, id, ht⟩ := h2.1
    exact ⟨hf, hi, id, ht⟩
  have h4 := throttle_timerTask_due (t0 + limit) [(c0, a0)] _ h3 (by
    show t0 + limit ≤ _ + e1
    rw [h2.2, hn]
    omega)
  refine ⟨h0, h1.2.1, h2.1.2.1, ?_⟩
  rw [throttled_plain_open func hplain limit stack c1 a1 _ (by exact h4.1)]
  show _ ++ [(c1, a1)] = _
  have h5 : ((((((throttled func limit (stack + 1) c0 a0 (throttle t0)).1).series func limit
      (stack + 1) calls).host (HostEvent.elapse e1)).host HostEvent.timerTask).host
        (HostEvent.elapse e2)).invoked = [(c0, a0)] := h4.2
  rw [h5]
  rfl

/-- Counterexample for C2 as stated. With `limit = 2 ^ 31` the host's delay is 0: a
timer task 30 ms after the first call resets the flag and a call then calls `func`
again, less than `limit` ms after the first call. With `limit = 100` and no timer task
in between, a call 101 ms after the first one still does not call `func`. With a
`func` that throws, the flag is never set and a second call at once calls `func`
again. -/
theorem throttle_window_counterexample :
    ((throttle 0).run (fun _ => plainRun) (2 ^ 31) 8
        [ThrottleEvent.call "btn" 0, ThrottleEvent.host (HostEvent.elapse 30),
         ThrottleEvent.host HostEvent.timerTask, ThrottleEvent.call "btn" 1]).invoked
      = [("btn", 0), ("btn", 1)] ∧
    ((throttle 0).run (fun _ => plainRun) 100 8
        [ThrottleEvent.call "btn" 0, ThrottleEvent.host (HostEvent.elapse 101),
         ThrottleEvent.call "btn" 1]).invoked
      = [("btn", 0)] ∧
    ((throttle 0).run (fun _ => { calls := [], throws := true }) 100 8
        [ThrottleEvent.call "btn" 0, ThrottleEvent.call "btn" 1]).invoked
      = [("btn", 0), ("btn", 1)] := by
  refine ⟨?_, ?_, ?_⟩ <;> decide

/-- Witness for C2 as amended: `limit = 100`; calls at 0, 40 and 99 ms with a timer task
attempted in between, a late call at 150 ms before the timer task, then the timer task
and a call. -/
theorem throttle_once_per_window_witness :
    (throttled (fun _ => plainRun) 100 8 "btn" 3
      ((((((throttled (fun _ => plainRun) 100 8 "btn" 0 (throttle 0)).1).series
          (fun _ => plainRun) 100 8 [(150, "btn", 2)]).host (HostEvent.elapse 0)).host
            HostEvent.timerTask).host (HostEvent.elapse 5))).1.invoked
      = [("btn", 0), ("btn", 3)] :=
  (throttle_once_per_window (fun _ => plainRun) (fun _ => rfl) 100 0 7 (by decide) "btn" 0
    [ThrottleEvent.host (HostEvent.elapse 40), ThrottleEvent.call "btn" 1,
     ThrottleEvent.host HostEvent.timerTask, ThrottleEvent.host (HostEvent.elapse 59),
     ThrottleEvent.call "btn" 2]
    (by decide) [(150, "btn", 2)] 0 5 (by decide) "btn" 3).2.2.2

/-! ## Properties of the required-field validation -/

theorem dropWhile_eq_nil_of_all {α : Type} (p : α → Bool) (l : List α)
    (h : ∀ x ∈ l.dropWhile p, p x = true) : l.dropWhile p = [] := by
  induction l with
  | nil => rfl
  | cons a t ih =>
    by_cases ha : p a = true
    · simp only [List.dropWhile_cons, ha, if_true] at h ⊢
      exact ih h
    · exfalso
      apply ha
      apply h
      simp [List.dropWhile_cons, ha]

theorem jsTrim_eq_empty_iff (v : String) :
    jsTrim v = "" ↔ ∀ c ∈ v.data, isJsWhiteSpace c = true := by
  have hmk : ∀ l : List Char, String.mk l = "" ↔ l = [] := by
    intro l
    constructor
    · intro h
      have := congrArg String.data h
      simpa using this
    · intro h
      subst h
      rfl
  unfold jsTrim
  rw [hmk, List.reverse_eq_nil_iff, List.dropWhile_eq_nil_iff]
  constructor
  · intro h
    have h1 := dropWhile_eq_nil_of_all isJsWhiteSpace v.data
      (fun x hx => h x (List.mem_reverse.mpr hx))
    exact List.dropWhile_eq_nil_iff.mp h1
  · intro h x hx
    have h1 := List.dropWhile_eq_nil_iff.mpr h
    rw [h1] at hx
    simp at hx

/-- What the `forEach` body does to one field. -/
theorem validateField_fold (fs : List Element) (acc : List Element) (b : Bool) :
    fs.foldl validateField (acc, b) =
      (acc ++ fs.map (fun f =>
          if !truthy (jsTrim f.value)
          then { f with classList := classListAdd f.classList "is-invalid" }
          else { f with classList := classListRemove f.classList "is-invalid" }),
        b && fs.all (fun f => truthy (jsTrim f.value))) := by
  induction fs generalizing acc b with
  | nil => simp
  | cons f t ih =>
    rw [List.foldl_cons]
    by_cases hf : truthy (jsTrim f.value) = true
    · simp [validateField, hf, ih]
    · simp only [Bool.not_eq_true] at hf
      simp [validateField, hf, ih]

theorem truthy_eq_false_iff (v : String) : truthy v = false ↔ v = "" := by
  simp [truthy]

theorem submitListener_valid_flag (fs : List Element) :
    (fs.foldl validateField ([], true)).2 = false ↔ ∃ f ∈ fs, jsTrim f.value = "" := by
  rw [validateField_fold]
  simp only [Bool.true_and]
  rw [Bool.eq_false_iff]
  simp only [ne_eq, List.all_eq_true, not_forall, Bool.not_eq_true, truthy_eq_false_iff]
  constructor
  · rintro ⟨f, hf, h⟩
    exact ⟨f, hf, h⟩
  · rintro ⟨f, hf, h⟩
    exact ⟨f, hf, h⟩

/-- C3. Required-field validation, blocking: the `submit` listener calls
`preventDefault` exactly when some required field has a value that is empty after
trimming, and shows the alert exactly then; when there is no such field (also when
there is no required field at all) it does neither. A value is empty after trimming
exactly when all its characters are white space. -/
theorem submit_blocked_iff_required_empty (requiredFields : List Element) :
    ((submitListener requiredFields).defaultPrevented = true ↔
      ∃ f ∈ requiredFields, jsTrim f.value = "") ∧
    ((submitListener requiredFields).alerts = ["Bitte füllen Sie alle Pflichtfelder aus."] ↔
      ∃ f ∈ requiredFields, jsTrim f.value = "") ∧
    (((submitListener requiredFields).defaultPrevented = false ∧
        (submitListener requiredFields).alerts = []) ↔
      ∀ f ∈ requiredFields, ¬ jsTrim f.value = "") ∧
    (∀ f ∈ requiredFields, jsTrim f.value = "" ↔ ∀ c ∈ f.value.data, isJsWhiteSpace c = true) := by
  have key := submitListener_valid_flag requiredFields
  by_cases h : (requiredFields.foldl validateField ([], true)).2 = false
  · have hex := key.mp h
    refine ⟨?_, ?_, ?_, fun f _ => jsTrim_eq_empty_iff f.value⟩
    · simp [submitListener, h, hex]
    · simp [submitListener, h, hex]
    · simp only [submitListener, h]
      constructor
      · intro hc
        simp at hc
      · intro hc
        obtain ⟨f, hf, he⟩ := hex
        exact absurd he (hc f hf)
  · have hne : ¬ ∃ f ∈ requiredFields, jsTrim f.value = "" := fun hex => h (key.mpr hex)
    have ht : (requiredFields.foldl validateField ([], true)).2 = true := by
      simpa using h
    refine ⟨?_, ?_, ?_, fun f _ => jsTrim_eq_empty_iff f.value⟩
    · simp [submitListener, ht, hne]
    · simp [submitListener, ht, hne]
    · simp only [submitListener, ht]
      constructor
      · intro _ f hf he
        exact hne ⟨f, hf, he⟩
      · intro _
        simp

theorem mem_classListAdd (cl : List String) (c x : String) :
    x ∈ classListAdd cl c ↔ x ∈ cl ∨ x = c := by
  unfold classListAdd
  by_cases h : cl.contains c = true
  · simp only [h, if_true]
    constructor
    · exact Or.inl
    · rintro (hx | hx)
      · exact hx
      · subst hx
        simpa using h
  · simp only [h, Bool.false_eq_true, if_false, List.mem_append, List.mem_singleton]

theorem mem_classListRemove (cl : List String) (c x : String) :
    x ∈ classListRemove cl c ↔ x ∈ cl ∧ x ≠ c := by
  simp [classListRemove]

theorem submitListener_fields (fs : List Element) :
    (submitListener fs).fields = fs.map (fun f =>
      if !truthy (jsTrim f.value)
      then { f with classList := classListAdd f.classList "is-invalid" }
      else { f with classList := classListRemove f.classList "is-invalid" }) := by
  unfold submitListener
  simp only [validateField_fold, List.nil_append]
  split <;> rfl

/-- C4. Required-field validation, marking: after a run of the `submit` listener the
required fields are the same fields in the same order, with their values untouched,
and each of them, whatever its class list was before, carries `is-invalid` exactly
when its value is empty after trimming; every other class token is kept as it was. -/
theorem submit_marks_exactly_empty_fields (requiredFields : List Element) :
    List.Forall₂
      (fun before after =>
        after.value = before.value ∧ after.tagName = before.tagName ∧
        ("is-invalid" ∈ after.classList ↔ jsTrim before.value = "") ∧
        (∀ c, c ≠ "is-invalid" → (c ∈ after.classList ↔ c ∈ before.classList)))
      requiredFields (submitListener requiredFields).fields := by
  rw [submitListener_fields, List.forall₂_map_right_iff, List.forall₂_same]
  intro f _
  by_cases hf : truthy (jsTrim f.value) = true
  · have hne : ¬ jsTrim f.value = "" := by
      intro he
      rw [(truthy_eq_false_iff _).mpr he] at hf
      exact Bool.noConfusion hf
    simp only [hf, Bool.not_true, Bool.false_eq_true, if_false, true_and]
    refine ⟨?_, ?_⟩
    · simp [mem_classListRemove, hne]
    · intro c hc
      simp [mem_classListRemove, hc]
  · simp only [Bool.not_eq_true] at hf
    have he : jsTrim f.value = "" := (truthy_eq_false_iff _).mp hf
    simp only [hf, Bool.not_false, if_true, true_and]
    refine ⟨?_, ?_⟩
    · simp [mem_classListAdd, he]
    · intro c hc
      simp [mem_classListAdd, hc]

/-! ## Properties of the unread badge -/

theorem digitCount_bounds (b : Nat) (hb : 2 ≤ b) (fuel n : Nat) (hf : n ≤ fuel) (hn : 0 < n) :
    b ^ (digitCount b fuel n - 1) ≤ n ∧ n < b ^ digitCount b fuel n ∧
      0 < digitCount b fuel n := by
  induction fuel generalizing n with
  | zero => omega
  | succ f ih =>
    have hne : n ≠ 0 := by omega
    simp only [digitCount, hne, if_false]
    by_cases hq : n / b = 0
    · have hlt : n < b := by
        exact (Nat.div_eq_zero_iff (by omega)).mp hq
      have h0 : digitCount b f (n / b) = 0 := by
        rw [hq]
        cases f <;> simp [digitCount]
      rw [h0]
      simp only [Nat.add_zero, Nat.sub_self, pow_zero, pow_one]
      omega
    · have hpos : 0 < n / b := Nat.pos_of_ne_zero hq
      have hle : n / b ≤ f := by
        have : n / b < n := Nat.div_lt_self hn (by omega)
        omega
      obtain ⟨h1, h2, h3⟩ := ih (n / b) hle hpos
      have hmul : n / b * b ≤ n := Nat.div_mul_le_self n b
      have hlt : n < (n / b + 1) * b := by
        have := Nat.lt_div_mul_add (a := n) (b := b) (by omega)
        rw [Nat.add_mul]
        omega
      refine ⟨?_, ?_, by omega⟩
      · have he : 1 + digitCount b f (n / b) - 1 = (digitCount b f (n / b) - 1) + 1 := by omega
        rw [he, pow_succ]
        exact Nat.le_trans (Nat.mul_le_mul_right b h1) hmul
      · have he : 1 + digitCount b f (n / b) = digitCount b f (n / b) + 1 := by omega
        rw [he, pow_succ]
        exact Nat.lt_of_lt_of_le hlt (Nat.mul_le_mul_right b h2)

/-- An integer literal that is read as a Number below `2 ^ 53` is that number. -/
theorem toDouble_small (c v : Nat) (h : toDouble c = JSNumber.finite v) (hv : v < 2 ^ 53) :
    c = v := by
  by_cases hc : c < 2 ^ 53
  · simp only [toDouble, hc, if_true, JSNumber.finite.injEq] at h
    exact h
  · exfalso
    have hc1 : 2 ^ 53 ≤ c := Nat.le_of_not_lt hc
    obtain ⟨hb1, hb2, _⟩ := digitCount_bounds 2 (Nat.le_refl 2) c c (Nat.le_refl c)
      (Nat.lt_of_lt_of_le (Nat.two_pow_pos 53) hc1)
    have hbits : 54 ≤ digitCount 2 c c := by
      by_contra hlt
      have h53 : digitCount 2 c c ≤ 53 := by omega
      have := Nat.pow_le_pow_right (n := 2) (by omega) h53
      omega
    have he : digitCount 2 c c - 1 = 52 + (digitCount 2 c c - 53) := by omega
    rw [he, pow_add] at hb1
    have hq : 2 ^ 52 ≤ c / 2 ^ (digitCount 2 c c - 53) :=
      (Nat.le_div_iff_mul_le (Nat.two_pow_pos _)).mpr hb1
    have hpe : 2 ≤ 2 ^ (digitCount 2 c c - 53) := by
      have := Nat.pow_le_pow_right (n := 2) (by omega) (show 1 ≤ digitCount 2 c c - 53 by omega)
      simpa using this
    have hr : c / 2 ^ (digitCount 2 c c - 53) ≤ roundSignificand
        (c / 2 ^ (digitCount 2 c c - 53)) (c % 2 ^ (digitCount 2 c c - 53))
        (2 ^ (digitCount 2 c c - 53 - 1)) := by
      unfold roundSignificand
      split <;> omega
    simp only [toDouble, hc, if_false] at h
    split at h
    · simp only [JSNumber.finite.injEq] at h
      have hge : 2 ^ 52 * 2 ≤ v := by
        rw [← h]
        exact Nat.mul_le_mul (Nat.le_trans hq hr) hpe
      omega
    · exact JSNumber.noConfusion h

theorem pickDigits_some (v z c : Nat) (h : pickDigits v z = some c) :
    toDouble c = JSNumber.finite v := by
  unfold pickDigits at h
  simp only at h
  split at h
  · rename_i hboth
    simp only [Bool.and_eq_true, bne_iff_ne, ne_eq, beq_iff_eq] at hboth
    split at h
    · simp only [Option.some.injEq] at h
      rw [← h]
      exact hboth.1.2
    · split at h
      · simp only [Option.some.injEq] at h
        rw [← h]
        exact hboth.2
      · split at h
        · simp only [Option.some.injEq] at h
          rw [← h]
          exact hboth.1.2
        · simp only [Option.some.injEq] at h
          rw [← h]
          exact hboth.2
  · split at h
    · rename_i hlo
      simp only [Bool.and_eq_true, bne_iff_ne, ne_eq, beq_iff_eq] at hlo
      simp only [Option.some.injEq] at h
      rw [← h]
      exact hlo.2
    · split at h
      · rename_i hhi
        simp only [beq_iff_eq] at hhi
        simp only [Option.some.injEq] at h
        rw [← h]
        exact hhi
      · exact Option.noConfusion h

theorem shortestDigits_denotes (v : Nat) (hv : toDouble v = JSNumber.finite v) (z : Nat) :
    toDouble (shortestDigits v z).1 = JSNumber.finite v := by
  induction z with
  | zero => exact hv
  | succ z ih =>
    simp only [shortestDigits]
    cases hp : pickDigits v (z + 1) with
    | none => exact ih
    | some c => exact pickDigits_some v (z + 1) c hp

/-- Below `2 ^ 53` the string of a Number is the decimal rendering of the integer. -/
theorem numberToString_small (v : Nat) (hv : v < 2 ^ 53) :
    numberToString (JSNumber.finite v) = Nat.repr v := by
  by_cases h0 : v = 0
  · subst h0
    rfl
  · have hd : toDouble v = JSNumber.finite v := by
      unfold toDouble
      rw [if_pos hv]
    have hc : (shortestDigits v (digitCount 10 v v)).1 = v :=
      toDouble_small _ v (shortestDigits_denotes v hd _) hv
    obtain ⟨hb1, _, hb3⟩ := digitCount_bounds 10 (by omega) v v (Nat.le_refl v)
      (Nat.pos_of_ne_zero h0)
    have hn : digitCount 10 v v ≤ 21 := by
      by_contra hlt
      have h21 : 21 ≤ digitCount 10 v v - 1 := by omega
      have := Nat.pow_le_pow_right (n := 10) (by omega) h21
      omega
    simp only [numberToString, h0, if_false, hc, hn, if_true]

/-- C7, as amended. Unread badge: with a signed-in user, a response
`{"unread_count": n}` with `n` at most `2 ^ 53` and an existing badge, the update
leaves the badge hidden (`display` is `none`, text untouched) when `n = 0`, and visible
(`display` is `flex`) with the decimal rendering of `n` as its text when `n > 0`; for
`n = 5` the text reads `5`. -/
theorem unread_badge_shows_count (n : Nat) (hn : n ≤ 2 ^ 53) (badge : Badge)
    (console : List String) :
    (n = 0 →
      (updateUnreadCount (some true) (.body n) ⟨some badge, console⟩).badge
        = some { textContent := badge.textContent, display := "none" }) ∧
    (0 < n →
      (updateUnreadCount (some true) (.body n) ⟨some badge, console⟩).badge
        = some { textContent := Nat.repr n, display := "flex" }) ∧
    (updateUnreadCount (some true) (.body 5) ⟨some badge, console⟩).badge
        = some { textContent := "5", display := "flex" } := by
  have hrepr : 0 < n → toDouble n = JSNumber.finite n ∧
      numberToString (JSNumber.finite n) = Nat.repr n := by
    intro hpos
    rcases Nat.lt_or_eq_of_le hn with hlt | heq
    · exact ⟨by unfold toDouble; rw [if_pos hlt], numberToString_small n hlt⟩
    · subst heq
      exact ⟨by decide, by decide⟩
  refine ⟨?_, ?_, ?_⟩
  · intro h
    subst h
    rfl
  · intro h
    obtain ⟨h1, h2⟩ := hrepr h
    simp only [updateUnreadCount, h1, JSNumber.isPositive, h, decide_True, if_true, h2]
  · have h5 : numberToString (JSNumber.finite 5) = "5" := by decide
    have h6 : toDouble 5 = JSNumber.finite 5 := by decide
    simp only [updateUnreadCount, h6, JSNumber.isPositive, h5]
    rfl

/-- Witness for C7 as amended: counts 0 and 12 on a badge that showed `3`. -/
theorem unread_badge_shows_count_witness :
    (updateUnreadCount (some true) (.body 0) ⟨some ⟨"3", "flex"⟩, []⟩).badge
        = some ⟨"3", "none"⟩ ∧
    (updateUnreadCount (some true) (.body 12) ⟨some ⟨"3", "none"⟩, []⟩).badge
        = some ⟨"12", "flex"⟩ :=
  ⟨(unread_badge_shows_count 0 (by decide) ⟨"3", "flex"⟩ []).1 rfl,
    (unread_badge_shows_count 12 (by decide) ⟨"3", "none"⟩ []).2.1 (by decide)⟩

/-- Counterexample for C7 as stated. For the count `2 ^ 53 + 1 = 9007199254740993`
the Number read from the body is `2 ^ 53` and the badge reads `9007199254740992`; for
the count `10 ^ 21` the badge reads `1e+21`. Neither is the decimal rendering of the
count. -/
theorem unread_badge_counterexample :
    (updateUnreadCount (some true) (.body (2 ^ 53 + 1)) ⟨some ⟨"", "none"⟩, []⟩).badge
        = some ⟨"9007199254740992", "flex"⟩ ∧
    Nat.repr (2 ^ 53 + 1) = "9007199254740993" ∧
    (updateUnreadCount (some true) (.body (10 ^ 21)) ⟨some ⟨"", "none"⟩, []⟩).badge
        = some ⟨"1e+21", "flex"⟩ ∧
    Nat.repr (10 ^ 21) = "1000000000000000000000" := by
  refine ⟨?_, ?_, ?_, ?_⟩ <;> decide

/-! ## Properties of the lazy images -/

theorem Image.load_load (img : Image) : img.load.load = img.load := by
  simp [Image.load, classListRemove, List.filter_filter]

theorem onEntry_image (s : LazyState) (e : IntersectionObserverEntry) (i : Nat) :
    (onEntry s e).images[i]? =
      if e.isIntersecting = true ∧ e.target = i then (s.images[i]?).map Image.load
      else s.images[i]? := by
  unfold onEntry
  by_cases h : e.isIntersecting = true
  · simp only [h, if_true, true_and, List.getElem?_modify]
    by_cases ht : e.target = i
    · simp only [ht, if_true]
      cases s.images[i]? <;> rfl
    · simp only [ht, if_false]
      cases s.images[i]? <;> rfl
  · simp [h]

theorem observerCallback_untouched (entries : List IntersectionObserverEntry) (i : Nat)
    (h : ∀ e ∈ entries, e.target = i → e.isIntersecting = false) (s : LazyState) :
    (observerCallback entries s).images[i]? = s.images[i]? := by
  induction entries generalizing s with
  | nil => rfl
  | cons e es ih =>
    have h1 := ih (fun x hx => h x (List.mem_cons_of_mem _ hx)) (onEntry s e)
    have h2 : ¬ (e.isIntersecting = true ∧ e.target = i) := by
      rintro ⟨ha, hb⟩
      rw [h e (List.mem_cons_self _ _) hb] at ha
      exact Bool.noConfusion ha
    simp only [observerCallback, List.foldl_cons] at h1 ⊢
    rw [h1, onEntry_image, if_neg h2]

theorem observerCallback_image_cases (entries : List IntersectionObserverEntry) (i : Nat)
    (s : LazyState) :
    (observerCallback entries s).images[i]? = s.images[i]? ∨
    (observerCallback entries s).images[i]? = (s.images[i]?).map Image.load := by
  induction entries generalizing s with
  | nil => exact Or.inl rfl
  | cons e es ih =>
    have h1 := ih (onEntry s e)
    simp only [observerCallback, List.foldl_cons] at h1 ⊢
    rw [onEntry_image] at h1
    by_cases hc : e.isIntersecting = true ∧ e.target = i
    · simp only [hc, and_self, if_true] at h1
      rcases h1 with h1 | h1
      · exact Or.inr h1
      · right
        rw [h1]
        cases s.images[i]? with
        | none => rfl
        | some x => simp [Image.load_load]
    · simpa only [hc, if_false] using h1

theorem observerCallback_loaded (entries : List IntersectionObserverEntry) (i : Nat)
    (h : ∃ e ∈ entries, e.target = i ∧ e.isIntersecting = true) (s : LazyState) :
    (observerCallback entries s).images[i]? = (s.images[i]?).map Image.load := by
  induction entries generalizing s with
  | nil => simp at h
  | cons e es ih =>
    by_cases hc : e.isIntersecting = true ∧ e.target = i
    · have h1 := observerCallback_image_cases es i (onEntry s e)
      simp only [observerCallback, List.foldl_cons] at h1 ⊢
      rw [onEntry_image, if_pos hc] at h1
      rcases h1 with h1 | h1
      · exact h1
      · rw [h1]
        cases s.images[i]? with
        | none => rfl
        | some x => simp [Image.load_load]
    · have hes : ∃ x ∈ es, x.target = i ∧ x.isIntersecting = true := by
        obtain ⟨x, hx, hxt, hxi⟩ := h
        rcases List.mem_cons.mp hx with rfl | hx
        · exact absurd ⟨hxi, hxt⟩ hc
        · exact ⟨x, hx, hxt, hxi⟩
      have h1 := ih hes (onEntry s e)
      simp only [observerCallback, List.foldl_cons] at h1 ⊢
      rw [h1, onEntry_image, if_neg hc]

theorem onEntry_observed_subset (s : LazyState) (e : IntersectionObserverEntry) (i : Nat)
    (h : i ∈ (onEntry s e).observed) : i ∈ s.observed := by
  unfold onEntry at h
  by_cases hi : e.isIntersecting = true
  · simp only [hi, if_true] at h
    exact (List.mem_filter.mp h).1
  · simpa [hi] using h

theorem observerCallback_observed_subset (entries : List IntersectionObserverEntry)
    (s : LazyState) (i : Nat) (h : i ∈ (observerCallback entries s).observed) :
    i ∈ s.observed := by
  induction entries generalizing s with
  | nil => exact h
  | cons e es ih =>
    simp only [observerCallback, List.foldl_cons] at h ih
    exact onEntry_observed_subset s e i (ih (onEntry s e) h)

theorem observerCallback_unobserved (entries : List IntersectionObserverEntry) (i : Nat)
    (h : ∃ e ∈ entries, e.target = i ∧ e.isIntersecting = true) (s : LazyState) :
    i ∉ (observerCallback entries s).observed := by
  induction entries generalizing s with
  | nil => simp at h
  | cons e es ih =>
    intro hmem
    by_cases hc : e.isIntersecting = true ∧ e.target = i
    · have h1 := observerCallback_observed_subset es (onEntry s e) i
        (by simpa only [observerCallback, List.foldl_cons] using hmem)
      unfold onEntry at h1
      simp only [hc.1, if_true] at h1
      have := (List.mem_filter.mp h1).2
      simp [hc.2] at this
    · have hes : ∃ x ∈ es, x.target = i ∧ x.isIntersecting = true := by
        obtain ⟨x, hx, hxt, hxi⟩ := h
        rcases List.mem_cons.mp hx with rfl | hx
        · exact absurd ⟨hxi, hxt⟩ hc
        · exact ⟨x, hx, hxt, hxi⟩
      exact ih hes (onEntry s e)
        (by simpa only [observerCallback, List.foldl_cons] using hmem)

theorem runCallbacks_eq (batches : List (List IntersectionObserverEntry)) (s : LazyState) :
    runCallbacks batches s = observerCallback batches.flatten s := by
  induction batches generalizing s with
  | nil => rfl
  | cons b bs ih =>
    simp only [runCallbacks, List.foldl_cons, List.flatten_cons, observerCallback,
      List.foldl_append] at ih ⊢
    exact ih _

theorem onEntry_writes (i : Nat) (s : LazyState) (e : IntersectionObserverEntry) :
    (onEntry s e).srcWrites.count i = s.srcWrites.count i + intersectingFor i [e] := by
  unfold onEntry intersectingFor
  by_cases hi : e.isIntersecting = true
  · by_cases ht : e.target = i
    · subst ht
      simp [hi, List.count_append]
    · have hc : List.count i [e.target] = 0 := by
        rw [List.count_eq_zero]
        simpa [eq_comm] using ht
      simp [hi, ht, List.count_append, hc]
  · simp [hi]

theorem intersectingFor_cons (i : Nat) (e : IntersectionObserverEntry)
    (es : List IntersectionObserverEntry) :
    intersectingFor i (e :: es) = intersectingFor i [e] + intersectingFor i es := by
  unfold intersectingFor
  by_cases h : (e.isIntersecting && e.target == i) = true
  · simp only [List.filter, h, List.length_cons, List.length_nil]
    omega
  · simp only [Bool.not_eq_true] at h
    simp only [List.filter, h, List.length_nil, Nat.zero_add]

theorem observerCallback_writes (i : Nat) (entries : List IntersectionObserverEntry)
    (s : LazyState) :
    (observerCallback entries s).srcWrites.count i
      = s.srcWrites.count i + intersectingFor i entries := by
  induction entries generalizing s with
  | nil => simp [observerCallback, intersectingFor]
  | cons e es ih =>
    have h1 := ih (onEntry s e)
    simp only [observerCallback, List.foldl_cons] at h1 ⊢
    rw [h1, onEntry_writes]
    have h2 := intersectingFor_cons i e es
    omega

/-- C8, as amended. Lazy image: for an image `img` (index `i`) with a `data-src`
attribute and every sequence of observer callbacks: an entry with
`isIntersecting = false` leaves the whole state as it is, so while no entry for the
image has been intersecting the image is unchanged; as soon as an entry for it has
been intersecting, its `src` is its `data-src` value, the class `lazy` is gone and the
image is no longer observed, and this stays so whatever entries follow; and `src` is
assigned once for every intersecting entry the callbacks hold for the image, hence at
most once exactly when they hold at most one such entry. -/
theorem lazy_image_loaded_once (images : List Image)
    (batches : List (List IntersectionObserverEntry)) (i : Nat) (img : Image)
    (himg : images[i]? = some img) :
    (∀ s e, e.isIntersecting = false → onEntry s e = s) ∧
    ((∀ e ∈ batches.flatten, e.target = i → e.isIntersecting = false) →
      (runCallbacks batches (lazyInit images)).images[i]? = some img) ∧
    ((∃ e ∈ batches.flatten, e.target = i ∧ e.isIntersecting = true) →
      (runCallbacks batches (lazyInit images)).images[i]?
          = some { src := img.dataSrc, dataSrc := img.dataSrc,
                   classList := classListRemove img.classList "lazy" } ∧
      "lazy" ∉ classListRemove img.classList "lazy" ∧
      i ∉ (runCallbacks batches (lazyInit images)).observed) ∧
    (runCallbacks batches (lazyInit images)).srcWrites.count i
      = intersectingFor i batches.flatten ∧
    ((runCallbacks batches (lazyInit images)).srcWrites.count i ≤ 1 ↔
      intersectingFor i batches.flatten ≤ 1) := by
  have hw : (runCallbacks batches (lazyInit images)).srcWrites.count i
      = intersectingFor i batches.flatten := by
    rw [runCallbacks_eq, observerCallback_writes]
    simp [lazyInit]
  refine ⟨?_, ?_, ?_, hw, by rw [hw]⟩
  · intro s e h
    simp [onEntry, h]
  · intro h
    rw [runCallbacks_eq, observerCallback_untouched _ i h]
    exact himg
  · intro h
    rw [runCallbacks_eq]
    refine ⟨?_, ?_, observerCallback_unobserved _ i h _⟩
    · rw [observerCallback_loaded _ i h]
      simp only [lazyInit, himg]
      rfl
    · simp [mem_classListRemove]

/-- Witness for C8 as amended: one lazy image; a first batch reports it outside the
viewport, a second one inside. -/
theorem lazy_image_loaded_once_witness :
    (runCallbacks [[⟨0, false⟩], [⟨0, true⟩]]
        (lazyInit [⟨"placeholder.gif", "/img/cat.png", ["lazy", "avatar"]⟩])).images[0]?
      = some ⟨"/img/cat.png", "/img/cat.png", ["avatar"]⟩ :=
  ((lazy_image_loaded_once [⟨"placeholder.gif", "/img/cat.png", ["lazy", "avatar"]⟩]
      [[⟨0, false⟩], [⟨0, true⟩]] 0 ⟨"placeholder.gif", "/img/cat.png", ["lazy", "avatar"]⟩
      rfl).2.2.1 ⟨⟨0, true⟩, by decide, rfl, rfl⟩).1

/-- Counterexample for C8 as stated: a callback handed two intersecting entries for
the same image assigns its `src` twice. -/
theorem lazy_image_copied_twice :
    (runCallbacks [[⟨0, true⟩, ⟨0, true⟩]]
        (lazyInit [⟨"placeholder.gif", "/img/cat.png", ["lazy"]⟩])).srcWrites.count 0 = 2 := by
  decide

/-! ## Properties of the navigation toggle -/

theorem parentOf_updateElement (doc : Document) (m : Nat) (f : Element → Element)
    (hf : ∀ e, (f e).parent = e.parent) (i : Nat) :
    parentOf (updateElement doc m f) i = parentOf doc i := by
  unfold parentOf updateElement
  rw [List.getElem?_modify]
  cases doc[i]? with
  | none => rfl
  | some e =>
    by_cases h : m = i
    · simp [h, hf]
    · simp [h]

theorem ancestors_updateElement (doc : Document) (m : Nat) (f : Element → Element)
    (hf : ∀ e, (f e).parent = e.parent) (fuel i : Nat) :
    ancestors (updateElement doc m f) fuel i = ancestors doc fuel i := by
  induction fuel generalizing i with
  | zero => rfl
  | succ n ih =>
    simp only [ancestors, parentOf_updateElement doc m f hf]
    cases parentOf doc i with
    | none => rfl
    | some p => simp [ih]

theorem contains_updateElement (doc : Document) (m : Nat) (f : Element → Element)
    (hf : ∀ e, (f e).parent = e.parent) (a target : Nat) :
    contains (updateElement doc m f) a target = contains doc a target := by
  unfold contains
  rw [ancestors_updateElement doc m f hf]
  simp [updateElement, List.length_modify]

theorem hasClass_updateElement (doc : Document) (m : Nat) (f : Element → Element) (c : String)
    (e : Element) (he : doc[m]? = some e) :
    hasClass (updateElement doc m f) m c = (f e).classList.contains c := by
  unfold hasClass updateElement
  rw [List.getElem?_modify, he]
  simp

theorem contains_classListToggle (cl : List String) (c : String) :
    (classListToggle cl c).contains c = !cl.contains c := by
  unfold classListToggle
  by_cases h : cl.contains c = true
  · simp only [h, if_true, Bool.not_true]
    rw [Bool.eq_false_iff]
    intro hc
    have : c ∈ classListRemove cl c := by simpa using hc
    exact ((mem_classListRemove cl c c).mp this).2 rfl
  · simp only [Bool.not_eq_true] at h
    rw [h]
    simp

theorem contains_classListRemove (cl : List String) (c : String) :
    (classListRemove cl c).contains c = false := by
  rw [Bool.eq_false_iff]
  intro hc
  have : c ∈ classListRemove cl c := by simpa using hc
  exact ((mem_classListRemove cl c c).mp this).2 rfl

/-- C10. Navigation toggle: with the toggle `t` and the menu `m` both present, a click
whose target is the toggle or lies inside it (so that the toggle's listener and then
the document's listener process it) leaves the menu's `nav-menu-active` class flipped;
a click whose target lies outside both the toggle and the menu leaves the menu without
the class, whatever its state before. -/
theorem nav_toggle_flips_and_outside_closes (doc : Document) (t m target : Nat)
    (hm : m < doc.length) :
    (contains doc t target = true →
      hasClass (navClick (some t) (some m) target doc) m "nav-menu-active"
        = !hasClass doc m "nav-menu-active") ∧
    (contains doc t target = false → contains doc m target = false →
      hasClass (navClick (some t) (some m) target doc) m "nav-menu-active" = false) := by
  have he : doc[m]? = some doc[m] := List.getElem?_eq_getElem hm
  refine ⟨?_, ?_⟩
  · intro ht
    have hc : contains (toggleListener m doc) t target = true := by
      unfold toggleListener
      rw [contains_updateElement]
      · exact ht
      · intro e
        rfl
    simp only [navClick, ht, if_true, documentClickListener, hc, Bool.not_true,
      Bool.and_false, Bool.false_eq_true, if_false]
    unfold toggleListener
    rw [hasClass_updateElement doc m _ _ _ he]
    simp only [contains_classListToggle, hasClass, he]
  · intro ht hmn
    simp only [navClick, ht, Bool.false_eq_true, if_false, documentClickListener, hmn,
      Bool.not_false, Bool.and_self, if_true]
    rw [hasClass_updateElement doc m _ _ _ he]
    exact contains_classListRemove _ _

/-- Witness for C10: a page `nav > (button.nav-toggle > span, ul.nav-menu), main`, on
which the two queries of the script find the button and the list; a click on the
`span` inside the toggle opens the closed menu, a click on `main` closes the open
menu. -/
theorem nav_toggle_flips_and_outside_closes_witness :
    querySelectorClass
        [⟨"nav", none, [], [], ""⟩, ⟨"button", some 0, [], ["nav-toggle"], ""⟩,
         ⟨"span", some 1, [], [], ""⟩, ⟨"ul", some 0, [], ["nav-menu"], ""⟩,
         ⟨"main", none, [], [], ""⟩] "nav-toggle" = some 1 ∧
    querySelectorClass
        [⟨"nav", none, [], [], ""⟩, ⟨"button", some 0, [], ["nav-toggle"], ""⟩,
         ⟨"span", some 1, [], [], ""⟩, ⟨"ul", some 0, [], ["nav-menu"], ""⟩,
         ⟨"main", none, [], [], ""⟩] "nav-menu" = some 3 ∧
    hasClass (navClick (some 1) (some 3) 2
        [⟨"nav", none, [], [], ""⟩, ⟨"button", some 0, [], ["nav-toggle"], ""⟩,
         ⟨"span", some 1, [], [], ""⟩, ⟨"ul", some 0, [], ["nav-menu"], ""⟩,
         ⟨"main", none, [], [], ""⟩]) 3 "nav-menu-active" = true ∧
    hasClass (navClick (some 1) (some 3) 4
        [⟨"nav", none, [], [], ""⟩, ⟨"button", some 0, [], ["nav-toggle"], ""⟩,
         ⟨"span", some 1, [], [], ""⟩,
         ⟨"ul", some 0, [], ["nav-menu", "nav-menu-active"], ""⟩,
         ⟨"main", none, [], [], ""⟩]) 3 "nav-menu-active" = false :=
  ⟨by decide, by decide,
   (nav_toggle_flips_and_outside_closes
      [⟨"nav", none, [], [], ""⟩, ⟨"button", some 0, [], ["nav-toggle"], ""⟩,
       ⟨"span", some 1, [], [], ""⟩, ⟨"ul", some 0, [], ["nav-menu"], ""⟩,
       ⟨"main", none, [], [], ""⟩] 1 3 2 (by decide)).1 (by decide),
   (nav_toggle_flips_and_outside_closes
      [⟨"nav", none, [], [], ""⟩, ⟨"button", some 0, [], ["nav-toggle"], ""⟩,
       ⟨"span", some 1, [], [], ""⟩,
       ⟨"ul", some 0, [], ["nav-menu", "nav-menu-active"], ""⟩,
       ⟨"main", none, [], [], ""⟩] 1 3 4 (by decide)).2 (by decide) (by decide)⟩

/-! ## The draft block on a page with a saved draft -/

theorem foldl_draftBlock_noop (rowsGt5 : Option String → Bool) (pathname : String)
    (page : DraftPage) (l : List Nat)
    (h : ∀ f ∈ l, querySelectorWithin page.doc f "textarea" = none) :
    l.foldl (draftBlock rowsGt5 pathname) page = page := by
  induction l with
  | nil => rfl
  | cons f fs ih =>
    have hf : draftBlock rowsGt5 pathname page f = page := by
      simp only [draftBlock, h f (List.mem_cons_self _ _)]
    rw [List.foldl_cons, hf]
    exact ih (fun x hx => h x (List.mem_cons_of_mem _ hx))

/-- On a page where no textarea inside a form has a textarea below it, the draft block
changes nothing. -/
theorem draftInit_noop (rowsGt5 : Option String → Bool) (pathname : String) (page : DraftPage)
    (h : ∀ f ∈ querySelectorAllFormTextarea page.doc,
      querySelectorWithin page.doc f "textarea" = none) :
    draftInit rowsGt5 pathname page = page :=
  foldl_draftBlock_noop rowsGt5 pathname page _ h

/-- C5. Draft restore on the page `/topic/new`, a `form` holding one
`textarea rows="10"`, with the draft `hello` stored under `draft_/topic/new`: whatever
the comparison of `rows` with 5 yields, the page-load block leaves the page as it was;
the textarea stays empty and no timer or listener is registered, because each element
of `longForms` is a textarea and has no textarea below it. The body of the block run
on the `form` element itself does put `hello` into the textarea. -/
theorem draft_not_restored_on_load (rowsGt5 : Option String → Bool) :
    querySelectorAllFormTextarea
        [⟨"form", none, [], [], ""⟩, ⟨"textarea", some 0, [("rows", "10")], [], ""⟩] = [1] ∧
    querySelectorWithin
        [⟨"form", none, [], [], ""⟩, ⟨"textarea", some 0, [("rows", "10")], [], ""⟩]
        1 "textarea" = none ∧
    draftInit rowsGt5 "/topic/new"
        ⟨[⟨"form", none, [], [], ""⟩, ⟨"textarea", some 0, [("rows", "10")], [], ""⟩],
          [("draft_/topic/new", "hello")], [], []⟩
      = ⟨[⟨"form", none, [], [], ""⟩, ⟨"textarea", some 0, [("rows", "10")], [], ""⟩],
          [("draft_/topic/new", "hello")], [], []⟩ ∧
    valueOf (draftInit rowsGt5 "/topic/new"
        ⟨[⟨"form", none, [], [], ""⟩, ⟨"textarea", some 0, [("rows", "10")], [], ""⟩],
          [("draft_/topic/new", "hello")], [], []⟩).doc 1 = some "" ∧
    valueOf (draftBlock (fun _ => true) "/topic/new"
        ⟨[⟨"form", none, [], [], ""⟩, ⟨"textarea", some 0, [("rows", "10")], [], ""⟩],
          [("draft_/topic/new", "hello")], [], []⟩ 0).doc 1 = some "hello" := by
  have h1 : querySelectorAllFormTextarea
      [⟨"form", none, [], [], ""⟩, ⟨"textarea", some 0, [("rows", "10")], [], ""⟩] = [1] := by
    decide
  have h2 : querySelectorWithin
      [⟨"form", none, [], [], ""⟩, ⟨"textarea", some 0, [("rows", "10")], [], ""⟩]
      1 "textarea" = none := by
    decide
  have h3 : draftInit rowsGt5 "/topic/new"
      ⟨[⟨"form", none, [], [], ""⟩, ⟨"textarea", some 0, [("rows", "10")], [], ""⟩],
        [("draft_/topic/new", "hello")], [], []⟩
      = ⟨[⟨"form", none, [], [], ""⟩, ⟨"textarea", some 0, [("rows", "10")], [], ""⟩],
        [("draft_/topic/new", "hello")], [], []⟩ := by
    simp only [draftInit, h1, List.foldl_cons, List.foldl_nil, draftBlock, h2]
  refine ⟨h1, h2, h3, ?_, ?_⟩
  · rw [h3]
    rfl
  · decide

/-! ## The anchor listener on a bare `#` -/

/-- On a fragment `#name` with a simple identifier the listener throws nothing: it
scrolls the first element with that `id` into view when there is one and does nothing
further otherwise. -/
theorem anchorClick_simple_fragment (other : String → Except DOMException (Option Nat))
    (doc : Document) (name : List Char) (h : isSimpleIdent name = true) :
    anchorClick other doc (String.mk ('#' :: name)) =
      match firstIndex (fun _ e => e.attributes.lookup "id" == some (String.mk name)) 0 doc with
      | none => { defaultPrevented := true, scrolled := [], uncaught := none }
      | some target =>
        { defaultPrevented := true, scrolled := [(target, "smooth")], uncaught := none } := by
  cases name with
  | nil => exact Bool.noConfusion h
  | cons c cs =>
    simp only [anchorClick, querySelector, h, if_true]
    cases firstIndex (fun _ e => e.attributes.lookup "id" == some (String.mk (c :: cs))) 0 doc
      <;> rfl

/-- C9. Smooth-scroll anchors on a link with `href="#"`: on every document the
listener calls `preventDefault`, then `document.querySelector('#')` throws a syntax
error that leaves the listener uncaught, and nothing is scrolled. -/
theorem anchor_bare_hash_throws (other : String → Except DOMException (Option Nat))
    (doc : Document) :
    anchorClick other doc "#" =
      { defaultPrevented := true, scrolled := [],
        uncaught := some (DOMException.syntaxError "#") } := by
  rfl

/-! ## The export statement on a browser page -/

/-- On every host page that provides `document` and `window` and no global
`updateUnreadCount`, the export statement throws and `window.miniForum` is not set. -/
theorem evalScript_unbound (hostGlobals : GlobalEnv) (d w : JSValue)
    (hd : hostGlobals.lookup "document" = some d) (hw : hostGlobals.lookup "window" = some w)
    (hu : hostGlobals.lookup "updateUnreadCount" = none) :
    (evalScript hostGlobals).thrown = some (JSError.referenceError "updateUnreadCount") ∧
    (evalScript hostGlobals).hasWindowProperty "miniForum" = false := by
  have h1 : resolveIdentifier (instantiateGlobals hostGlobals) "document" = .ok d := by
    simp [resolveIdentifier, instantiateGlobals, topLevelFunctions, List.lookup, hd]
  have h2 : resolveIdentifier (instantiateGlobals hostGlobals) "window" = .ok w := by
    simp [resolveIdentifier, instantiateGlobals, topLevelFunctions, List.lookup, hw]
  have h3 : resolveIdentifier (instantiateGlobals hostGlobals) "updateUnreadCount"
      = .error (JSError.referenceError "updateUnreadCount") := by
    simp [resolveIdentifier, instantiateGlobals, topLevelFunctions, List.lookup, hu]
  simp [evalScript, h1, h2, shorthandObject, h3, ScriptOutcome.hasWindowProperty]

/-- C6. Exported namespace on a page whose globals are `window` and `document`:
`updateUnreadCount` is declared in the `DOMContentLoaded` callback and not at the top
level, so evaluating `window.miniForum = { updateUnreadCount, debounce, throttle }`
throws a reference error for `updateUnreadCount`; the listener of the first statement
is registered, and `window` gets no property `miniForum`. -/
theorem export_statement_throws :
    "updateUnreadCount" ∈ callbackFunctions ∧
    "updateUnreadCount" ∉ topLevelFunctions ∧
    (evalScript browserGlobals).thrown = some (JSError.referenceError "updateUnreadCount") ∧
    (evalScript browserGlobals).domContentLoadedListeners = 1 ∧
    (evalScript browserGlobals).hasWindowProperty "miniForum" = false := by
  refine ⟨by decide, by decide, ?_, ?_, ?_⟩ <;> rfl

end MiniForum
